import Mathlib

/-!
Verification development for the Access-Control repository
(`Source/Access-Controller.py`).  The logical core — the JSON-backed
tag store (`load_tags_from_json`, `save_tags_to_json`, `add_tag_to_json`,
`remove_tag_from_json`) and the access check (`check_tag`) — is embedded
shallowly below.  The backing file `allowed_tags.json` is modelled
explicitly as a `Disk` state so that persistence behaviour is provable,
and an I/O failure of a write is modelled by a `writeOk : Bool` flag
(`save_tags_to_json` catches `IOError` and only prints it).
-/

namespace AccessController

/-- A JSON value, as produced by Python's `json.load`.  Numbers are kept
abstract as integers; their exact values never matter for the tag store. -/
inductive Json where
  | null
  | bool (b : Bool)
  | num (n : Int)
  | str (s : String)
  | arr (elems : List Json)
  | obj (fields : List (String × Json))

/-- The state of the backing file `allowed_tags.json`: absent
(`os.path.exists` is false), or present but unreadable or not parseable
as JSON (`json.load` raises `JSONDecodeError` or `IOError`), or present
and holding the JSON value `j`. -/
inductive Disk where
  | missing
  | corrupt
  | content (j : Json)

/-- The hardcoded default tag list used by `load_tags_from_json` whenever
the file is missing, corrupt, or holds a non-list value. -/
def default_tags : List String :=
  ["0001234567", "0009876543", "0005555555", "12345", "67890"]

/-- Python's equality test of the string `tag` against one decoded JSON
element (as performed elementwise by `tag in lst` and `lst.remove(tag)`):
a decoded `str` equals exactly the equal string; a decoded number, bool,
null, list or dict never equals a string. -/
def eqStrTag (tag : String) : Json → Bool
  | .str t => tag == t
  | _ => false

/-- Python's `tag in lst` for a string `tag` and a list of decoded JSON
values. -/
def memStr (tag : String) (l : List Json) : Bool :=
  l.any (eqStrTag tag)

/-- `save_tags_to_json(tags)`: rewrites the whole file with the JSON array
of `tags`; an `IOError` (modelled by `writeOk = false`) is caught, only
printed, and leaves the file as it was. -/
def save_tags_to_json (tags : List Json) (writeOk : Bool) (d : Disk) : Disk :=
  if writeOk then Disk.content (Json.arr tags) else d

/-- The default tag list as decoded JSON values. -/
def defaultJson : List Json :=
  default_tags.map Json.str

/-- `load_tags_from_json()`: returns the decoded list when the file holds a
JSON array (verbatim, no validation of its elements); otherwise — file
missing, unreadable/unparseable, or holding a non-array value — writes the
default list back to the file and returns the default list.  The result
pairs the returned in-memory list with the resulting file state. -/
def load_tags_from_json (d : Disk) (writeOk : Bool) : List Json × Disk :=
  match d with
  | Disk.content (Json.arr tags) => (tags, d)
  | Disk.content _ => (defaultJson, save_tags_to_json defaultJson writeOk d)
  | Disk.missing => (defaultJson, save_tags_to_json defaultJson writeOk Disk.missing)
  | Disk.corrupt => (defaultJson, save_tags_to_json defaultJson writeOk Disk.corrupt)

/-- The program state the tag-store operations act on: the in-memory list
`self.allowed_tags` together with the backing file. -/
structure AppState where
  allowed_tags : List Json
  disk : Disk

/-- `add_tag_to_json(tag)`: if `tag` is not in the in-memory list, append
it, rewrite the file with the full list and return `True`; otherwise
return `False` and change nothing. -/
def add_tag_to_json (s : AppState) (tag : String) (writeOk : Bool) :
    Bool × AppState :=
  if memStr tag s.allowed_tags then (false, s)
  else
    let tags := s.allowed_tags ++ [Json.str tag]
    (true, ⟨tags, save_tags_to_json tags writeOk s.disk⟩)

/-- `remove_tag_from_json(tag)`: if `tag` is in the in-memory list, remove
its first occurrence (Python `list.remove`), rewrite the file with the
full list and return `True`; otherwise return `False` and change
nothing. -/
def remove_tag_from_json (s : AppState) (tag : String) (writeOk : Bool) :
    Bool × AppState :=
  if memStr tag s.allowed_tags then
    let tags := s.allowed_tags.eraseP (eqStrTag tag)
    (true, ⟨tags, save_tags_to_json tags writeOk s.disk⟩)
  else (false, s)

/-- The three outcomes `check_tag` can report through `show_tag_result` /
`add_activity`: the distinct "EMPTY TAG" rejection, "ACCESS GRANTED", and
"ACCESS DENIED". -/
inductive CheckResult where
  | emptyTag
  | granted
  | denied
  deriving DecidableEq

/-- `check_tag(tag)`: an empty string is rejected with the distinct
"EMPTY TAG" outcome before any membership test; a non-empty member of
`allowed_tags` is granted, and when the serial connection is open
(`esp` is not `None`) the bytes `b"open\n"` are written to it; any other
non-empty string is denied.  The second component lists the byte strings
written to the serial connection; nothing is ever read back from it. -/
def check_tag (allowed : List Json) (esp : Bool) (tag : String) :
    CheckResult × List String :=
  if tag = "" then (CheckResult.emptyTag, [])
  else if memStr tag allowed then
    (CheckResult.granted, if esp then ["open\n"] else [])
  else (CheckResult.denied, [])

/-- The state right after startup: `self.allowed_tags =
self.load_tags_from_json()`. -/
def loadState (d : Disk) (writeOk : Bool) : AppState :=
  ⟨(load_tags_from_json d writeOk).1, (load_tags_from_json d writeOk).2⟩

/-- A sequence of `add_tag_to_json` calls (each persisting successfully),
in order. -/
def addTags (s : AppState) (ts : List String) : AppState :=
  ts.foldl (fun s t => (add_tag_to_json s t true).2) s

/-! ### Helper lemmas -/

theorem eqStrTag_eq_true_iff (tag : String) (j : Json) :
    eqStrTag tag j = true ↔ j = Json.str tag := by
  cases j <;> simp [eqStrTag]
  exact eq_comm

theorem memStr_eq_true_iff (tag : String) (l : List Json) :
    memStr tag l = true ↔ Json.str tag ∈ l := by
  simp [memStr, List.any_eq_true, eqStrTag_eq_true_iff]

theorem memStr_eq_false_iff (tag : String) (l : List Json) :
    memStr tag l = false ↔ Json.str tag ∉ l := by
  rw [← Bool.not_eq_true, not_iff_not]
  exact memStr_eq_true_iff tag l

theorem memStr_eraseP_self {tag : String} {l : List Json}
    (h : l.Nodup) : memStr tag (l.eraseP (eqStrTag tag)) = false := by
  induction l with
  | nil => rfl
  | cons x xs ih =>
      rcases List.nodup_cons.mp h with ⟨hx, hxs⟩
      by_cases hcase : eqStrTag tag x = true
      · rw [List.eraseP_cons_of_pos hcase, memStr_eq_false_iff]
        rw [eqStrTag_eq_true_iff] at hcase
        exact fun hmem => hx (hcase ▸ hmem)
      · rw [List.eraseP_cons_of_neg (by simpa using hcase)]
        simp only [memStr, List.any_cons, Bool.or_eq_false_iff]
        exact ⟨Bool.not_eq_true _ ▸ hcase, ih hxs⟩

/-- The in-memory list and the file content agree: the disk holds exactly
the JSON array of the in-memory tags. -/
def sync (s : AppState) : Prop :=
  s.disk = Disk.content (Json.arr s.allowed_tags)

theorem sync_loadState (d : Disk) : sync (loadState d true) := by
  cases d with
  | missing => rfl
  | corrupt => rfl
  | content j => cases j <;> rfl

theorem sync_add {s : AppState} (h : sync s) (t : String) :
    sync (add_tag_to_json s t true).2 := by
  unfold add_tag_to_json
  by_cases hm : memStr t s.allowed_tags = true
  · simpa [hm] using h
  · simp only [Bool.not_eq_true] at hm
    simp [hm, sync, save_tags_to_json]

theorem sync_addTags (s : AppState) (ts : List String) (h : sync s) :
    sync (addTags s ts) := by
  induction ts generalizing s with
  | nil => exact h
  | cons t ts ih => exact ih _ (sync_add h t)

/-! ### Claims -/

/-- C1.  `check_tag`'s policy: an empty tag string is rejected with the
distinct "EMPTY TAG" outcome — before and regardless of any membership
test, so it never matches any stored tag; a non-empty string that is a
member of the in-memory store is granted; a non-empty string absent from
the store is denied. -/
theorem check_tag_policy (allowed : List Json) (esp : Bool) (tag : String) :
    (tag = "" → (check_tag allowed esp tag).1 = CheckResult.emptyTag) ∧
    (tag ≠ "" → memStr tag allowed = true →
      (check_tag allowed esp tag).1 = CheckResult.granted) ∧
    (tag ≠ "" → memStr tag allowed = false →
      (check_tag allowed esp tag).1 = CheckResult.denied) := by
  refine ⟨fun h => by simp [check_tag, h], fun h hm => ?_, fun h hm => ?_⟩
  · simp [check_tag, h, hm]
  · simp [check_tag, h, hm]

theorem check_tag_policy_witness :
    (check_tag [Json.str "12345"] true "").1 = CheckResult.emptyTag ∧
    (check_tag [Json.str "12345"] true "12345").1 = CheckResult.granted ∧
    (check_tag [Json.str "12345"] true "99").1 = CheckResult.denied :=
  ⟨(check_tag_policy [Json.str "12345"] true "").1 rfl,
   (check_tag_policy [Json.str "12345"] true "12345").2.1 (by decide) rfl,
   (check_tag_policy [Json.str "12345"] true "99").2.2 (by decide) rfl⟩

/-- C2.  `add_tag_to_json`: when the tag is already present it returns
`False` and changes neither the in-memory list nor the file (for any
write outcome); otherwise it appends the tag at the end of the in-memory
list, rewrites the file with the full new list, and returns `True`. -/
theorem add_tag_spec (s : AppState) (tag : String) :
    (memStr tag s.allowed_tags = true →
      ∀ w : Bool, add_tag_to_json s tag w = (false, s)) ∧
    (memStr tag s.allowed_tags = false →
      add_tag_to_json s tag true =
        (true, ⟨s.allowed_tags ++ [Json.str tag],
                Disk.content (Json.arr (s.allowed_tags ++ [Json.str tag]))⟩)) := by
  constructor
  · intro h w
    simp [add_tag_to_json, h]
  · intro h
    simp [add_tag_to_json, h, save_tags_to_json]

theorem add_tag_spec_witness :
    add_tag_to_json ⟨[Json.str "12345"], Disk.missing⟩ "12345" false =
      (false, ⟨[Json.str "12345"], Disk.missing⟩) ∧
    add_tag_to_json ⟨[Json.str "12345"], Disk.missing⟩ "67890" true =
      (true, ⟨[Json.str "12345", Json.str "67890"],
              Disk.content (Json.arr [Json.str "12345", Json.str "67890"])⟩) :=
  ⟨(add_tag_spec ⟨[Json.str "12345"], Disk.missing⟩ "12345").1 rfl false,
   (add_tag_spec ⟨[Json.str "12345"], Disk.missing⟩ "67890").2 rfl⟩

/-- C3.  `remove_tag_from_json`: when the tag is absent it returns `False`
and changes neither the in-memory list nor the file (for any write
outcome); otherwise it removes the first occurrence of the tag from the
in-memory list (Python `list.remove`), rewrites the file with the full
new list, and returns `True` — in particular, in a duplicate-free store
the tag is no longer present afterwards. -/
theorem remove_tag_spec (s : AppState) (tag : String) :
    (memStr tag s.allowed_tags = false →
      ∀ w : Bool, remove_tag_from_json s tag w = (false, s)) ∧
    (memStr tag s.allowed_tags = true →
      remove_tag_from_json s tag true =
        (true, ⟨s.allowed_tags.eraseP (eqStrTag tag),
                Disk.content (Json.arr (s.allowed_tags.eraseP (eqStrTag tag)))⟩) ∧
      (s.allowed_tags.Nodup →
        memStr tag (remove_tag_from_json s tag true).2.allowed_tags = false)) := by
  constructor
  · intro h w
    simp [remove_tag_from_json, h]
  · intro h
    refine ⟨by simp [remove_tag_from_json, h, save_tags_to_json], fun hnd => ?_⟩
    simp only [remove_tag_from_json, h, if_true]
    exact memStr_eraseP_self hnd

theorem remove_tag_spec_witness :
    remove_tag_from_json ⟨[Json.str "12345"], Disk.missing⟩ "99" true =
      (false, ⟨[Json.str "12345"], Disk.missing⟩) ∧
    remove_tag_from_json ⟨[Json.str "12345", Json.str "67890"], Disk.missing⟩
        "12345" true =
      (true, ⟨[Json.str "67890"],
              Disk.content (Json.arr [Json.str "67890"])⟩) ∧
    memStr "12345"
      (remove_tag_from_json ⟨[Json.str "12345", Json.str "67890"],
        Disk.missing⟩ "12345" true).2.allowed_tags = false :=
  ⟨(remove_tag_spec ⟨[Json.str "12345"], Disk.missing⟩ "99").1 rfl true,
   ((remove_tag_spec ⟨[Json.str "12345", Json.str "67890"], Disk.missing⟩
      "12345").2 rfl).1,
   ((remove_tag_spec ⟨[Json.str "12345", Json.str "67890"], Disk.missing⟩
      "12345").2 rfl).2 (by simp)⟩

/-- C4.  Round-trip: starting from any disk state, load the store, perform
any sequence of (successfully persisted) `add_tag_to_json` calls; then
reloading from disk yields exactly the in-memory tag sequence, in
insertion order. -/
theorem load_addTags_roundtrip (d : Disk) (ts : List String) (w : Bool) :
    (load_tags_from_json (addTags (loadState d true) ts).disk w).1 =
      (addTags (loadState d true) ts).allowed_tags := by
  have h : sync (addTags (loadState d true) ts) :=
    sync_addTags _ ts (sync_loadState d)
  rw [sync] at h
  rw [h]
  rfl

/-- The default tag list contains no duplicates. -/
theorem default_tags_nodup : default_tags.Nodup := by decide

theorem defaultJson_nodup : defaultJson.Nodup :=
  List.Nodup.map (fun _ _ h => Json.str.inj h) default_tags_nodup

/-- C5 counterexample.  The claimed invariant fails: a backing file holding
the JSON array `["a", "a"]` is returned by `load_tags_from_json` verbatim,
so the resulting store contains a duplicate tag. -/
theorem load_duplicates_counterexample :
    ¬ (load_tags_from_json
        (Disk.content (Json.arr [Json.str "a", Json.str "a"])) true).1.Nodup := by
  intro h
  exact (List.nodup_cons.mp h).1 (List.mem_singleton.mpr rfl)

/-- C5 amended.  `add_tag_to_json` and `remove_tag_from_json` preserve
duplicate-freedom of the store, and `load_tags_from_json` yields the
duplicate-free default list when the file is missing, unreadable, or
holds a non-array value; but a file holding a JSON array is returned
verbatim, so a load can introduce duplicates only if the file itself
contained them. -/
theorem nodup_preserved (s : AppState) (tag : String) (w : Bool) (j : Json)
    (h : s.allowed_tags.Nodup) (hj : ∀ xs, j ≠ Json.arr xs) :
    (add_tag_to_json s tag w).2.allowed_tags.Nodup ∧
    (remove_tag_from_json s tag w).2.allowed_tags.Nodup ∧
    (load_tags_from_json Disk.missing w).1.Nodup ∧
    (load_tags_from_json Disk.corrupt w).1.Nodup ∧
    (load_tags_from_json (Disk.content j) w).1.Nodup := by
  refine ⟨?_, ?_, defaultJson_nodup, defaultJson_nodup, ?_⟩
  · by_cases hm : memStr tag s.allowed_tags = true
    · simpa [add_tag_to_json, hm] using h
    · simp only [Bool.not_eq_true] at hm
      simp only [add_tag_to_json, hm, Bool.false_eq_true, if_false]
      refine List.nodup_append.mpr ⟨h, List.nodup_singleton _, ?_⟩
      intro x hx hx1
      rw [List.mem_singleton] at hx1
      exact (memStr_eq_false_iff tag s.allowed_tags).mp hm (hx1 ▸ hx)
  · by_cases hm : memStr tag s.allowed_tags = true
    · simp only [remove_tag_from_json, hm, if_true]
      exact List.Nodup.sublist (List.eraseP_sublist _) h
    · simp only [Bool.not_eq_true] at hm
      simpa [remove_tag_from_json, hm] using h
  · cases j
    case arr xs => exact absurd rfl (hj xs)
    all_goals exact defaultJson_nodup

theorem nodup_preserved_witness :
    (add_tag_to_json ⟨[Json.str "a"], Disk.missing⟩ "b" true).2.allowed_tags.Nodup ∧
    (remove_tag_from_json ⟨[Json.str "a"], Disk.missing⟩ "b"
      true).2.allowed_tags.Nodup ∧
    (load_tags_from_json Disk.missing true).1.Nodup ∧
    (load_tags_from_json Disk.corrupt true).1.Nodup ∧
    (load_tags_from_json (Disk.content Json.null) true).1.Nodup :=
  nodup_preserved ⟨[Json.str "a"], Disk.missing⟩ "b" true Json.null
    (List.nodup_singleton _) (fun _ hx => Json.noConfusion hx)

/-- C6.  Loading when the backing file is missing writes the file with the
fixed default tag list and returns that default list. -/
theorem load_missing_creates_default :
    load_tags_from_json Disk.missing true =
      (defaultJson, Disk.content (Json.arr defaultJson)) := rfl

/-- C7.  Loading when the backing file holds a non-array JSON value, or
fails to parse at all, replaces the file content with the fixed default
tag list and returns that default list. -/
theorem load_nonarray_replaces_default (j : Json)
    (hj : ∀ xs, j ≠ Json.arr xs) :
    load_tags_from_json (Disk.content j) true =
      (defaultJson, Disk.content (Json.arr defaultJson)) ∧
    load_tags_from_json Disk.corrupt true =
      (defaultJson, Disk.content (Json.arr defaultJson)) := by
  refine ⟨?_, rfl⟩
  cases j
  case arr xs => exact absurd rfl (hj xs)
  all_goals rfl

theorem load_nonarray_replaces_default_witness :
    load_tags_from_json (Disk.content Json.null) true =
      (defaultJson, Disk.content (Json.arr defaultJson)) ∧
    load_tags_from_json Disk.corrupt true =
      (defaultJson, Disk.content (Json.arr defaultJson)) :=
  load_nonarray_replaces_default Json.null (fun _ hx => Json.noConfusion hx)

/-- C8.  On an access grant (non-empty tag present in the store) with the
serial connection open, `check_tag` writes exactly the fixed literal
command `b"open\n"` — the token "open" followed by a newline — to the
serial connection; the model records every serial write and contains no
read, so nothing is read back. -/
theorem grant_writes_open (allowed : List Json) (tag : String)
    (h : tag ≠ "") (hm : memStr tag allowed = true) :
    check_tag allowed true tag = (CheckResult.granted, ["open\n"]) := by
  simp [check_tag, h, hm]

theorem grant_writes_open_witness :
    check_tag [Json.str "12345"] true "12345" =
      (CheckResult.granted, ["open\n"]) :=
  grant_writes_open [Json.str "12345"] "12345" (by decide) rfl

/-- C9.  A persistence failure (the `IOError` branch of
`save_tags_to_json`, modelled by `writeOk = false`) changes neither the
returned result of `add_tag_to_json` / `remove_tag_from_json` nor the
in-memory list they produce: both are exactly as in the success case, the
failure being only printed. -/
theorem persist_failure_preserves_result (s : AppState) (tag : String) :
    (add_tag_to_json s tag false).1 = (add_tag_to_json s tag true).1 ∧
    (add_tag_to_json s tag false).2.allowed_tags =
      (add_tag_to_json s tag true).2.allowed_tags ∧
    (remove_tag_from_json s tag false).1 =
      (remove_tag_from_json s tag true).1 ∧
    (remove_tag_from_json s tag false).2.allowed_tags =
      (remove_tag_from_json s tag true).2.allowed_tags := by
  by_cases hm : memStr tag s.allowed_tags = true <;>
    simp [add_tag_to_json, remove_tag_from_json, hm]

/-- C10.  A backing file that parses to any JSON array whatsoever —
empty, with non-string elements, or with duplicates — is returned by
`load_tags_from_json` verbatim, and the file is not rewritten. -/
theorem load_array_verbatim (xs : List Json) (w : Bool) :
    load_tags_from_json (Disk.content (Json.arr xs)) w =
      (xs, Disk.content (Json.arr xs)) := rfl

end AccessController
